import Mathlib

/-!
Verification of the resolution-and-loading bridge of the
deno-inspector-panic-repro repository: the esbuild Deno plugin in
src/unnamed/part_004 (`onResolve`, `onLoad`, `getModuleType`, `mediaToLoader`,
`externalToRegex`) together with the enumerations of the vendored
`@deno/loader` module (src/vendor/jsr.io/@deno/loader/0.3.4/src/mod.ts).

Strings are modelled through their character lists; JS `startsWith` /
`endsWith` become prefix and suffix tests on those lists.  The regular
expressions of the plugin (`externalToRegex`'s output, `couldNotResolveReg`,
and the env-inlining regex) are embedded as executable matchers whose
semantics follow the concrete regex literals in the source.  The external
resolution engine (`loader.resolve` / `loader.load`), the host builtin check
(`isBuiltin` from node:module) and the path-library conversions are opaque
collaborators and enter the model as function parameters; engine errors are
`Error` values carrying their message string.
-/

/-- Model of JS `String.prototype.startsWith`: the characters of `p` are a
prefix of the characters of `s`. -/
def strStarts (s p : String) : Bool :=
  p.data.isPrefixOf s.data

/-- Model of JS `String.prototype.endsWith`: the characters of `p` are a
suffix of the characters of `s`. -/
def strEnds (s p : String) : Bool :=
  p.data.reverse.isPrefixOf s.data.reverse

/-- The `MediaType` enumeration of the vendored `@deno/loader` `mod.ts`
(lines 77-96). -/
inductive MediaType where
  | JavaScript
  | Jsx
  | Mjs
  | Cjs
  | TypeScript
  | Mts
  | Cts
  | Dts
  | Dmts
  | Dcts
  | Tsx
  | Css
  | Json
  | Html
  | Sql
  | Wasm
  | SourceMap
  | Unknown
deriving DecidableEq, Repr

/-- The `RequestedModuleType` enumeration of the vendored `@deno/loader`
`mod.ts` (lines 164-169). -/
inductive RequestedModuleType where
  | Default
  | Json
  | Text
  | Bytes
deriving DecidableEq, Repr

/-- The `ResolutionMode` enumeration of the vendored `@deno/loader` `mod.ts`
(lines 135-140). -/
inductive ResolutionMode where
  | Import
  | Require
deriving DecidableEq, Repr

/-- Embedding of `mediaToLoader` (src/unnamed/part_004, lines 186-218): a
switch over the closed `MediaType` enumeration returning the esbuild loader
name.  `Cts` and `Dts` are enumeration values the switch does not name, so
they take its `default` branch. -/
def mediaToLoader : MediaType → String
  | .Jsx => "jsx"
  | .JavaScript => "js"
  | .Mjs => "js"
  | .Cjs => "js"
  | .TypeScript => "ts"
  | .Mts => "ts"
  | .Dmts => "ts"
  | .Dcts => "ts"
  | .Tsx => "tsx"
  | .Css => "css"
  | .Json => "json"
  | .Html => "default"
  | .Sql => "default"
  | .Wasm => "binary"
  | .SourceMap => "json"
  | .Unknown => "default"
  | .Cts => "default"
  | .Dts => "default"

/-- Embedding of `getModuleType` (src/unnamed/part_004, lines 234-251).
`withType` is the `type` field of the import attributes (`withArgs.type`),
`none` when the attribute is absent.  The JS `switch` compares with strict
equality, and its `default` branch covers both an absent attribute and an
attribute carrying any other value. -/
def getModuleType (file : String) (withType : Option String) : RequestedModuleType :=
  if withType = some "text" then .Text
  else if withType = some "bytes" then .Bytes
  else if withType = some "json" then .Json
  else if strEnds file ".json" then .Json
  else .Default

/-- Embedding of the namespace classification inside `onResolve`
(src/unnamed/part_004, lines 82-93): the if/else chain over the resolved
URL's scheme prefixes; `none` models leaving `namespace` undefined. -/
def classify (res : String) : Option String :=
  if strStarts res "file:" then some "file"
  else if strStarts res "http:" then some "http"
  else if strStarts res "https:" then some "https"
  else if strStarts res "npm:" then some "npm"
  else if strStarts res "jsr:" then some "jsr"
  else none

/-- Characters on which the JS `.` metacharacter fails (ECMAScript line
terminators). -/
def isLineTerm (c : Char) : Bool :=
  c == Char.ofNat 10 || c == Char.ofNat 13 || c == Char.ofNat 0x2028 || c == Char.ofNat 0x2029

/-- Fuel-indexed matcher for the anchored regular expression built by
`externalToRegex` (src/unnamed/part_004, lines 255-262).  The construction
escapes every regex metacharacter of the pattern except `*` and turns each
`*` into `.*`, anchoring the whole expression, so the compiled regex accepts
a string exactly when the pattern characters match it literally, each `*`
consuming any run of non-line-terminator characters.  The fuel only bounds
the recursion; pattern length plus string length plus one always suffices,
because every recursive step shortens the pattern or the string. -/
def reMatchF : Nat → List Char → List Char → Bool
  | 0, _, _ => false
  | _ + 1, [], [] => true
  | _ + 1, [], _ :: _ => false
  | fuel + 1, p :: ps, cs =>
    if p == '*' then
      reMatchF fuel ps cs ||
        (match cs with
         | [] => false
         | c :: cs' => !isLineTerm c && reMatchF fuel (p :: ps) cs')
    else
      match cs with
      | [] => false
      | c :: cs' => p == c && reMatchF fuel ps cs'

/-- Match semantics of `externalToRegex(ext).test(s)`. -/
def externalMatch (ext s : String) : Bool :=
  reMatchF (ext.data.length + s.data.length + 1) ext.data s.data

/-- Match a literal character sequence at the front of a list, returning the
remainder on success. -/
def matchLit : List Char → List Char → Option (List Char)
  | [], cs => some cs
  | _ :: _, [] => none
  | l :: ls, c :: cs => if l == c then matchLit ls cs else none

/-- Characters of the literal left part of `couldNotResolveReg`
(src/unnamed/part_004, lines 104-105). -/
def cnrOpen : List Char := "Relative import path \"".data

/-- Characters of the literal right part of `couldNotResolveReg`. -/
def cnrClose : List Char := "\" not prefixed with".data

/-- After the opening literal of `couldNotResolveReg` has matched, decide
whether the lazy `.*?` followed by the closing literal matches: either the
closing literal starts here, or one non-line-terminator character is consumed
and the search continues. -/
def cnrTail : List Char → Bool
  | [] => (matchLit cnrClose []).isSome
  | c :: cs => (matchLit cnrClose (c :: cs)).isSome || (!isLineTerm c && cnrTail cs)

/-- Unanchored search for `couldNotResolveReg`: try the pattern at every
starting position. -/
def cnrSearch : List Char → Bool
  | [] => false
  | c :: cs =>
    (match matchLit cnrOpen (c :: cs) with
     | some rest => cnrTail rest
     | none => false) || cnrSearch cs

/-- Embedding of `couldNotResolveReg.test(err.message)` (src/unnamed/part_004,
line 107). -/
def couldNotResolveTest (msg : String) : Bool :=
  cnrSearch msg.data

/-- Quote characters of the regex classes `["']` and `['"]`. -/
def isQuote (c : Char) : Bool :=
  c == Char.ofNat 34 || c == Char.ofNat 39

/-- Characters of the regex class `[\w_-]`. -/
def isWordChar (c : Char) : Bool :=
  decide (97 ≤ c.toNat ∧ c.toNat ≤ 122) || decide (65 ≤ c.toNat ∧ c.toNat ≤ 90) ||
    decide (48 ≤ c.toNat ∧ c.toNat ≤ 57) || c == '_' || c == '-'

/-- Characters of a list before its first `)`, or `none` when it has no `)`.
The greedy group `([^)]+)` of the env regex can never cross the first `)`. -/
def splitAtParen : List Char → Option (List Char)
  | [] => none
  | c :: cs => if c == ')' then some [] else (splitAtParen cs).map (fun a => c :: a)

/-- Characters of the literal head of the first env-regex alternative. -/
def denoLit : List Char := "Deno.env.get(".data

/-- Characters of the literal head of the second env-regex alternative. -/
def procLit : List Char := "process.env.".data

/-- Try the first alternative of the env regex (src/unnamed/part_004, line
151) at the front of `cs`.  After the literal `Deno.env.get(` and an opening
quote, the greedy group `([^)]+)` followed by a quote character and `)`
matches exactly when the first `)` afterwards is preceded by a quote
character with at least one group character before it; the capture is
everything between the opening quote and that closing quote (the two quote
characters may differ, as in the source regex).  Returns the captured
variable name and the length of the whole match. -/
def matchAlt1 (cs : List Char) : Option (String × Nat) :=
  match matchLit denoLit cs with
  | none => none
  | some rest =>
    match rest with
    | [] => none
    | q :: rest2 =>
      if isQuote q then
        match splitAtParen rest2 with
        | none => none
        | some body =>
          match body.getLast? with
          | none => none
          | some last =>
            if isQuote last && decide (2 ≤ body.length) then
              some (String.mk body.dropLast, denoLit.length + 1 + body.length + 1)
            else none
      else none

/-- Run of `[\w_-]` characters at the front of a list. -/
def takeWordRun : List Char → List Char
  | [] => []
  | c :: cs => if isWordChar c then c :: takeWordRun cs else []

/-- Try the second alternative of the env regex at the front of `cs`: the
literal `process.env.` followed by a maximal nonempty run of `[\w_-]`
characters, which is also the capture. -/
def matchAlt2 (cs : List Char) : Option (String × Nat) :=
  match matchLit procLit cs with
  | none => none
  | some rest =>
    let run := takeWordRun rest
    if run.isEmpty then none
    else some (String.mk run, procLit.length + run.length)

/-- Try the two alternatives of the env regex in source order at the front of
`cs`. -/
def tryEnvMatch (cs : List Char) : Option (String × Nat) :=
  (matchAlt1 cs).orElse (fun _ => matchAlt2 cs)

/-- Hexadecimal digit characters used by JSON escapes. -/
def hexDigit (n : Nat) : Char :=
  if n < 10 then Char.ofNat (48 + n) else Char.ofNat (87 + n)

/-- JSON escape of a single character, following `JSON.stringify`. -/
def jsonEscapeChar (c : Char) : List Char :=
  if c == Char.ofNat 34 then [Char.ofNat 92, Char.ofNat 34]
  else if c == Char.ofNat 92 then [Char.ofNat 92, Char.ofNat 92]
  else if c == Char.ofNat 8 then [Char.ofNat 92, 'b']
  else if c == Char.ofNat 9 then [Char.ofNat 92, 't']
  else if c == Char.ofNat 10 then [Char.ofNat 92, 'n']
  else if c == Char.ofNat 12 then [Char.ofNat 92, 'f']
  else if c == Char.ofNat 13 then [Char.ofNat 92, 'r']
  else if decide (c.toNat < 32) then
    [Char.ofNat 92, 'u', '0', '0', hexDigit (c.toNat / 16), hexDigit (c.toNat % 16)]
  else [c]

/-- Result of `JSON.stringify` on a string value: a double-quoted, escaped
literal. -/
def jsonQuote (s : String) : String :=
  String.mk (Char.ofNat 34 :: ((s.data.map jsonEscapeChar).flatten ++ [Char.ofNat 34]))

/-- Embedding of `JSON.stringify(Deno.env.get(name))` as used in the rewrite
callback (src/unnamed/part_004, lines 154 and 159): a set variable becomes
its JSON-quoted value; an unset variable gives the `undefined` value, which
the string replacement coerces to the text `undefined`. -/
def jsonStringifyEnv : Option String → String
  | some v => jsonQuote v
  | none => "undefined"

/-- Fuel-indexed pass of `String.prototype.replaceAll` with the env regex
(src/unnamed/part_004, lines 150-163): at each position the leftmost match of
the alternation is taken; a matched variable name starting with the
configured public prefix is replaced by `jsonStringifyEnv` of its value, any
other match is kept verbatim, and scanning resumes after the match.  The
`max len 1` only guards the recursion (a successful match always has a
positive length), and fuel equal to the list length plus one always suffices
because every step consumes at least one character. -/
def inlineEnvF (env : String → Option String) (pre : String) : Nat → List Char → List Char
  | 0, cs => cs
  | _ + 1, [] => []
  | fuel + 1, c :: cs =>
    match tryEnvMatch (c :: cs) with
    | some (name, len) =>
      (if strStarts name pre then (jsonStringifyEnv (env name)).data
       else (c :: cs).take len) ++ inlineEnvF env pre fuel ((c :: cs).drop (max len 1))
    | none => c :: inlineEnvF env pre fuel cs

/-- The env-inlining rewrite of `onLoad` on decoded source text. -/
def inlineEnv (env : String → Option String) (pre : String) (src : String) : String :=
  String.mk (inlineEnvF env pre (src.data.length + 1) src.data)

/-- The esbuild import kinds of `args.kind` in `onResolve`. -/
inductive ImportKind where
  | entryPoint
  | importStatement
  | requireCall
  | dynamicImport
  | requireResolve
  | importRule
  | composesFrom
  | urlToken
deriving DecidableEq, Repr

/-- The `onResolve` arguments used by the plugin: `args.path`,
`args.importer` and `args.kind`. -/
structure OnResolveArgsM where
  path : String
  importer : String
  kind : ImportKind

/-- Result of the `onResolve` hook: `external p` is `{path: p, external:
true}`, `resolved p ns` is `{path: p, namespace: ns}`, and `deferred` is the
`null` sentinel that lets esbuild apply its default resolution. -/
inductive ResolveOutcome where
  | external (path : String)
  | resolved (path : String) (ns : Option String)
  | deferred
deriving DecidableEq, Repr

/-- Embedding of the `onResolve` hook (src/unnamed/part_004, lines 63-113).
`isBuiltinP` models `isBuiltin` from node:module, `externals` the configured
external patterns compiled by `externalToRegex` (lines 59-61), `resolveE` the
engine call `loader.resolve`, and `fromFileUrl` the path-library conversion
of a `file:` URL into a platform path.  A thrown engine error is an `Error`
carrying its message. -/
def onResolve (isBuiltinP : String → Bool) (externals : List String)
    (resolveE : String → String → ResolutionMode → Except String String)
    (fromFileUrl : String → String) (args : OnResolveArgsM) :
    Except String ResolveOutcome :=
  if isBuiltinP args.path || externals.any (fun ext => externalMatch ext args.path) then
    .ok (.external args.path)
  else
    let kind := if args.kind = .requireCall ∨ args.kind = .requireResolve then
      ResolutionMode.Require else ResolutionMode.Import
    match resolveE args.path args.importer kind with
    | .ok res =>
      .ok (.resolved (if strStarts res "file:" then fromFileUrl res else res) (classify res))
    | .error err =>
      if couldNotResolveTest err then .ok .deferred else .error err

/-- Posix `isAbsolute` of the path library: the path starts with a slash. -/
def isAbsolutePath (p : String) : Bool :=
  strStarts p "/"

/-- Model of `path.toFileUrl` from the path-library dependency (posix
flavor): it throws `Path must be absolute` on a non-absolute input and
otherwise builds a `file:` URL from the path.  The URL construction itself
stays abstract as the parameter `conv`; only the guard is needed here. -/
def toFileUrl (conv : String → String) (p : String) : Except String String :=
  if isAbsolutePath p then .ok (conv p) else .error "Path must be absolute"

/-- Embedding of the URL construction at the top of `onLoad`
(src/unnamed/part_004, lines 128-132): a path with an `http:`, `https:`,
`npm:` or `jsr:` scheme is used as the URL directly, anything else goes
through `path.toFileUrl`. -/
def onLoadUrl (conv : String → String) (p : String) : Except String String :=
  if strStarts p "http:" || strStarts p "https:" || strStarts p "npm:" || strStarts p "jsr:" then
    .ok p
  else toFileUrl conv p

/-- The path field produced by the success branch of `onResolve`
(src/unnamed/part_004, lines 95-97) for a resolved URL `res`. -/
def resolvedPathOf (fromFileUrl : String → String) (res : String) : String :=
  if strStarts res "file:" then fromFileUrl res else res

/-- Engine load responses from the vendored `@deno/loader` `mod.ts` (lines
98-132): a module with a media type and code bytes, or an external
specifier.  Code buffers stay abstract in `β` (byte arrays in the source). -/
inductive LoadResponse (β : Type) where
  | module (mediaType : MediaType) (code : β)
  | external (specifier : String)

/-- Contents of an `OnLoadResult`: the raw engine bytes, or rewritten text. -/
inductive LoadContents (β : Type) where
  | bytes (b : β)
  | text (s : String)

/-- Result of the `onLoad` hook: contents plus the esbuild loader name. -/
structure OnLoadResultM (β : Type) where
  contents : LoadContents β
  loader : String

/-- The `onLoad` arguments used by the plugin: `args.path` and the `type`
field of `args.with`. -/
structure OnLoadArgsM where
  path : String
  withType : Option String

/-- Embedding of the `onLoad` hook (src/unnamed/part_004, lines 125-175).
`decode` models `new TextDecoder().decode`, `env` the environment, `envPre`
the `publicEnvVarPrefix` option (`none` when absent), and `loadE` the engine
call `loader.load`.  The env-inlining branch runs only when the option is a
truthy (non-empty) string and the requested module type is `Default`; the
`null` return for an external engine response is `none`. -/
def onLoad {β : Type} (decode : β → String) (env : String → Option String)
    (envPre : Option String) (conv : String → String)
    (loadE : String → RequestedModuleType → Except String (LoadResponse β))
    (args : OnLoadArgsM) : Except String (Option (OnLoadResultM β)) := do
  let url ← onLoadUrl conv args.path
  let moduleType := getModuleType args.path args.withType
  let res ← loadE url moduleType
  match res with
  | .external _ => pure none
  | .module mediaType code =>
    let esbuildLoader := mediaToLoader mediaType
    match envPre with
    | some p =>
      if p ≠ "" ∧ moduleType = .Default then
        pure (some ⟨.text (inlineEnv env p (decode code)), esbuildLoader⟩)
      else
        pure (some ⟨.bytes code, esbuildLoader⟩)
    | none => pure (some ⟨.bytes code, esbuildLoader⟩)

/-- A successful `List.isPrefixOf` yields an explicit decomposition of the
longer list. -/
theorem isPrefixOf_exists : ∀ (p u : List Char), p.isPrefixOf u = true → ∃ t, u = p ++ t
  | [], u, _ => ⟨u, rfl⟩
  | _ :: _, [], h => by simp [List.isPrefixOf] at h
  | a :: as, b :: bs, h => by
    simp only [List.isPrefixOf, Bool.and_eq_true, beq_iff_eq] at h
    obtain ⟨h1, h2⟩ := h
    obtain ⟨t, ht⟩ := isPrefixOf_exists as bs h2
    exact ⟨t, by rw [h1, ht, List.cons_append]⟩

/-- String form of the prefix decomposition. -/
theorem strStarts_exists {s p : String} (h : strStarts s p = true) :
    ∃ t, s.data = p.data ++ t := by
  unfold strStarts at h
  exact isPrefixOf_exists _ _ h

/-- C1 counterexample: with an import attribute of type `weird` and path
`x.json`, `getModuleType` still applies extension sniffing and returns
`Json`, while the claim requires `Default` (it says sniffing never happens
when an attribute with some other value is present). -/
theorem c1_counterexample :
    getModuleType "x.json" (some "weird") = RequestedModuleType.Json ∧
    RequestedModuleType.Json ≠ RequestedModuleType.Default := by
  decide

/-- C1 (amended): the Module Type Selector returns Text, Bytes or Json when
the type attribute is `text`, `bytes` or `json` regardless of the path, and
in every other case — the attribute absent or carrying any other value — it
falls back to extension sniffing: Json when the path ends in `.json` and
Default otherwise.  In particular attribute `text` with path `x.json` gives
Text, no attribute with `x.json` gives Json, and no attribute with `x.ts`
gives Default. -/
theorem c1_module_type_selector :
    (∀ file : String, getModuleType file (some "text") = RequestedModuleType.Text) ∧
    (∀ file : String, getModuleType file (some "bytes") = RequestedModuleType.Bytes) ∧
    (∀ file : String, getModuleType file (some "json") = RequestedModuleType.Json) ∧
    (∀ (file : String) (w : Option String),
      w ≠ some "text" → w ≠ some "bytes" → w ≠ some "json" →
      getModuleType file w =
        if strEnds file ".json" then RequestedModuleType.Json else RequestedModuleType.Default) ∧
    getModuleType "x.json" (some "text") = RequestedModuleType.Text ∧
    getModuleType "x.json" none = RequestedModuleType.Json ∧
    getModuleType "x.ts" none = RequestedModuleType.Default := by
  refine ⟨fun file => rfl, fun file => rfl, fun file => rfl, ?_, by decide, by decide, by decide⟩
  intro file w h1 h2 h3
  simp [getModuleType, h1, h2, h3]

/-- C1 witness: the amended fallback clause applied to attribute `css` and
path `a.json`. -/
theorem c1_module_type_selector_witness :
    getModuleType "a.json" (some "css") =
      (if strEnds "a.json" ".json" then RequestedModuleType.Json
       else RequestedModuleType.Default) :=
  c1_module_type_selector.2.2.2.1 "a.json" (some "css") (by decide) (by decide) (by decide)

/-- C2: for a specifier that is a host builtin or matches a compiled
external pattern, `onResolve` returns the specifier marked external, and the
result does not depend on the engine at all. -/
theorem c2_external_short_circuit
    (isB : String → Bool) (exts : List String)
    (r1 r2 : String → String → ResolutionMode → Except String String)
    (f : String → String) (args : OnResolveArgsM)
    (h : isB args.path = true ∨ ∃ e ∈ exts, externalMatch e args.path = true) :
    onResolve isB exts r1 f args = .ok (.external args.path) ∧
    onResolve isB exts r1 f args = onResolve isB exts r2 f args := by
  have hc : (isB args.path || exts.any (fun ext => externalMatch ext args.path)) = true := by
    rcases h with h | ⟨e, he, hm⟩
    · simp [h]
    · have hany : exts.any (fun ext => externalMatch ext args.path) = true := by
        rw [List.any_eq_true]
        exact ⟨e, he, hm⟩
      simp [hany]
  constructor <;> simp [onResolve, hc]

/-- C2 witness: the builtin specifier `node:fs` short-circuits an engine
that would fail. -/
theorem c2_witness :
    onResolve (fun s => s == "node:fs") [] (fun _ _ _ => .error "boom") (fun s => s)
      ⟨"node:fs", "file:///m.ts", .importStatement⟩ = .ok (.external "node:fs") :=
  (c2_external_short_circuit (fun s => s == "node:fs") [] (fun _ _ _ => .error "boom")
    (fun _ _ _ => .ok "unused") (fun s => s) ⟨"node:fs", "file:///m.ts", .importStatement⟩
    (Or.inl (by decide))).1

/-- C3: when the engine's resolve rejects, `onResolve` returns the defer
sentinel exactly when the error message matches the relative-import-path
pattern, and otherwise propagates the very same error. -/
theorem c3_deferrable_error
    (isB : String → Bool) (exts : List String)
    (r : String → String → ResolutionMode → Except String String)
    (f : String → String) (args : OnResolveArgsM) (e : String)
    (hb : isB args.path = false)
    (hx : exts.any (fun ext => externalMatch ext args.path) = false)
    (hr : r args.path args.importer
      (if args.kind = .requireCall ∨ args.kind = .requireResolve then
        ResolutionMode.Require else ResolutionMode.Import) = .error e) :
    (couldNotResolveTest e = true → onResolve isB exts r f args = .ok .deferred) ∧
    (couldNotResolveTest e = false → onResolve isB exts r f args = .error e) := by
  have hcond : (isB args.path || exts.any (fun ext => externalMatch ext args.path)) = false := by
    simp [hb, hx]
  constructor <;> intro h <;> simp [onResolve, hcond, hr, h]

/-- C3 witness: an engine rejection with the relative-import-path message
makes `onResolve` defer. -/
theorem c3_witness :
    onResolve (fun _ => false) []
      (fun _ _ _ => .error "Relative import path \"foo\" not prefixed with / or ./")
      (fun s => s) ⟨"foo", "file:///m.ts", .importStatement⟩ = .ok .deferred :=
  (c3_deferrable_error (fun _ => false) []
    (fun _ _ _ => .error "Relative import path \"foo\" not prefixed with / or ./")
    (fun s => s) ⟨"foo", "file:///m.ts", .importStatement⟩
    "Relative import path \"foo\" not prefixed with / or ./"
    rfl rfl rfl).1 (by decide)

/-- A JSON-quoted value always begins with a double quote, so it is never
the text `undefined`. -/
theorem jsonQuote_ne_undefined (v : String) : jsonQuote v ≠ "undefined" := by
  intro h
  have h3 : (jsonQuote v).data.head? = ("undefined" : String).data.head? := by rw [h]
  have h4 : (jsonQuote v).data.head? = some (Char.ofNat 34) := rfl
  have h5 : ("undefined" : String).data.head? = some 'u' := rfl
  rw [h4, h5] at h3
  exact absurd h3 (by decide)

/-- C4: with prefix `FOO_`, the rewriter turns the getter call for `FOO_BAR`
into the JSON-quoted current value of that variable, leaves the getter call
for `BAZ_QUX` byte-for-byte unchanged, and turns the getter call for the
unset `FOO_MISSING` into the text `undefined`, which differs from the empty
string and from every JSON-quoted value — in particular from the rewriting
of a variable set to the empty string. -/
theorem c4_env_inlining :
    (∀ (env : String → Option String) (v : String), env "FOO_BAR" = some v →
      inlineEnv env "FOO_" "Deno.env.get(\"FOO_BAR\")" = jsonQuote v) ∧
    (∀ env : String → Option String,
      inlineEnv env "FOO_" "Deno.env.get(\"BAZ_QUX\")" = "Deno.env.get(\"BAZ_QUX\")") ∧
    (∀ env : String → Option String, env "FOO_MISSING" = none →
      inlineEnv env "FOO_" "Deno.env.get(\"FOO_MISSING\")" = "undefined") ∧
    ("undefined" : String) ≠ "" ∧
    (∀ v : String, jsonQuote v ≠ "undefined") := by
  refine ⟨?_, fun env => rfl, ?_, by decide, jsonQuote_ne_undefined⟩
  · intro env v h
    have h0 : inlineEnv env "FOO_" "Deno.env.get(\"FOO_BAR\")"
        = String.mk ((jsonStringifyEnv (env "FOO_BAR")).data ++ []) := rfl
    rw [h0, h, List.append_nil]
    rfl
  · intro env h
    have h0 : inlineEnv env "FOO_" "Deno.env.get(\"FOO_MISSING\")"
        = String.mk ((jsonStringifyEnv (env "FOO_MISSING")).data ++ []) := rfl
    rw [h0, h]
    rfl

/-- C4 witness: a set variable with value `hello` is inlined as its
JSON-quoted value. -/
theorem c4_witness :
    inlineEnv (fun n => if n = "FOO_BAR" then some "hello" else none) "FOO_"
      "Deno.env.get(\"FOO_BAR\")" = jsonQuote "hello" :=
  c4_env_inlining.1 (fun n => if n = "FOO_BAR" then some "hello" else none) "hello" (by decide)

/-- C5 counterexample: for the resolved URL `data:text/javascript,1` — which
the resolve hook passes through unchanged, since it has no `file:` scheme —
the load hook's URL construction does not reproduce the URL: the path
matches none of the passthrough schemes, so it is handed to
`path.toFileUrl`, which rejects it (`Path must be absolute`) instead of
yielding the resolved URL back. -/
theorem c5_counterexample :
    onLoadUrl (fun p => "file://" ++ p)
      (resolvedPathOf (fun p => p) "data:text/javascript,1") ≠
      Except.ok "data:text/javascript,1" := by
  intro h
  have h0 : onLoadUrl (fun p => "file://" ++ p)
      (resolvedPathOf (fun p => p) "data:text/javascript,1") =
      Except.error "Path must be absolute" := rfl
  rw [h0] at h
  exact Except.noConfusion h

/-- C5 (amended): for every resolved URL with scheme http, https, npm or
jsr, feeding the path produced by the resolve hook into the load hook's URL
construction yields exactly the URL the engine returned; for a `file:` URL
the load hook instead re-derives the URL by applying the file-URL conversion
to the platform path produced by the resolve hook, so it equals the original
URL exactly when that conversion round trip is the identity on it; URLs of
any other scheme are not reproduced, since the construction misapplies
file-URL conversion to them. -/
theorem c5_resolve_load_url :
    (∀ (conv f : String → String) (res : String),
      strStarts res "http:" = true ∨ strStarts res "https:" = true ∨
        strStarts res "npm:" = true ∨ strStarts res "jsr:" = true →
      onLoadUrl conv (resolvedPathOf f res) = .ok res) ∧
    (∀ (conv f : String → String) (res : String),
      strStarts res "file:" = true → strStarts (f res) "/" = true →
      onLoadUrl conv (resolvedPathOf f res) = .ok (conv (f res))) := by
  constructor
  · intro conv f res h
    have hfile : strStarts res "file:" = false := by
      rcases h with h | h | h | h <;>
        · obtain ⟨t, ht⟩ := strStarts_exists h
          unfold strStarts
          rw [ht]
          rfl
    have hres : resolvedPathOf f res = res := by simp [resolvedPathOf, hfile]
    rw [hres]
    rcases h with h | h | h | h <;> simp [onLoadUrl, h]
  · intro conv f res hf hs
    have hres : resolvedPathOf f res = f res := by simp [resolvedPathOf, hf]
    obtain ⟨t, ht⟩ := strStarts_exists hs
    have n1 : strStarts (f res) "http:" = false := by unfold strStarts; rw [ht]; rfl
    have n2 : strStarts (f res) "https:" = false := by unfold strStarts; rw [ht]; rfl
    have n3 : strStarts (f res) "npm:" = false := by unfold strStarts; rw [ht]; rfl
    have n4 : strStarts (f res) "jsr:" = false := by unfold strStarts; rw [ht]; rfl
    rw [hres]
    simp [onLoadUrl, n1, n2, n3, n4, toFileUrl, isAbsolutePath, hs]

/-- C5 witness: an npm-scheme resolved URL is passed through both hooks
unchanged. -/
theorem c5_witness :
    onLoadUrl (fun p => "file://" ++ p) (resolvedPathOf (fun p => p) "npm:preact") =
      Except.ok "npm:preact" :=
  c5_resolve_load_url.1 (fun p => "file://" ++ p) (fun p => p) "npm:preact"
    (Or.inr (Or.inr (Or.inl (by decide))))

/-- C6: the namespace classification maps each of the five scheme prefixes
to its tag, leaves every other scheme unset, and is deterministic. -/
theorem c6_classifier :
    (∀ u : String, strStarts u "file:" = true → classify u = some "file") ∧
    (∀ u : String, strStarts u "http:" = true → classify u = some "http") ∧
    (∀ u : String, strStarts u "https:" = true → classify u = some "https") ∧
    (∀ u : String, strStarts u "npm:" = true → classify u = some "npm") ∧
    (∀ u : String, strStarts u "jsr:" = true → classify u = some "jsr") ∧
    (∀ u : String, strStarts u "file:" = false → strStarts u "http:" = false →
      strStarts u "https:" = false → strStarts u "npm:" = false →
      strStarts u "jsr:" = false → classify u = none) ∧
    (∀ u : String, classify u = classify u) := by
  refine ⟨?_, ?_, ?_, ?_, ?_, ?_, fun u => rfl⟩
  · intro u h
    simp [classify, h]
  · intro u h
    obtain ⟨t, ht⟩ := strStarts_exists h
    have h1 : strStarts u "file:" = false := by unfold strStarts; rw [ht]; rfl
    simp [classify, h1, h]
  · intro u h
    obtain ⟨t, ht⟩ := strStarts_exists h
    have h1 : strStarts u "file:" = false := by unfold strStarts; rw [ht]; rfl
    have h2 : strStarts u "http:" = false := by unfold strStarts; rw [ht]; rfl
    simp [classify, h1, h2, h]
  · intro u h
    obtain ⟨t, ht⟩ := strStarts_exists h
    have h1 : strStarts u "file:" = false := by unfold strStarts; rw [ht]; rfl
    have h2 : strStarts u "http:" = false := by unfold strStarts; rw [ht]; rfl
    have h3 : strStarts u "https:" = false := by unfold strStarts; rw [ht]; rfl
    simp [classify, h1, h2, h3, h]
  · intro u h
    obtain ⟨t, ht⟩ := strStarts_exists h
    have h1 : strStarts u "file:" = false := by unfold strStarts; rw [ht]; rfl
    have h2 : strStarts u "http:" = false := by unfold strStarts; rw [ht]; rfl
    have h3 : strStarts u "https:" = false := by unfold strStarts; rw [ht]; rfl
    have h4 : strStarts u "npm:" = false := by unfold strStarts; rw [ht]; rfl
    simp [classify, h1, h2, h3, h4, h]
  · intro u h1 h2 h3 h4 h5
    simp [classify, h1, h2, h3, h4, h5]

/-- C6 witness: an https URL is classified into the https namespace. -/
theorem c6_witness : classify "https://example.com/mod.ts" = some "https" :=
  c6_classifier.2.2.1 "https://example.com/mod.ts" (by decide)

/-- On a pattern without `*`, the compiled external regex accepts exactly
the pattern itself, given enough fuel. -/
theorem reMatchF_literal :
    ∀ (fuel : Nat) (p s : List Char), p.length + s.length < fuel →
      (∀ c ∈ p, c ≠ '*') → (reMatchF fuel p s = true ↔ p = s)
  | 0, _, _, h, _ => absurd h (by omega)
  | _ + 1, [], [], _, _ => by simp [reMatchF]
  | _ + 1, [], _ :: _, _, _ => by simp [reMatchF]
  | _ + 1, a :: as, [], _, hs => by
    have ha : (a == '*') = false := beq_eq_false_iff_ne.mpr (hs a (by simp))
    simp [reMatchF, ha]
  | fuel + 1, a :: as, c :: cs, h, hs => by
    have ha : (a == '*') = false := beq_eq_false_iff_ne.mpr (hs a (by simp))
    have ih := reMatchF_literal fuel as cs
      (by simp only [List.length_cons] at h; omega)
      (fun x hx => hs x (by simp [hx]))
    simp [reMatchF, ha, ih]

/-- C7: the compiled external pattern `@foo/*` matches `@foo/bar` and
`@foo/` but not `@foobar`; metacharacters are escaped, so `a.b` matches
itself but not `axb`; the pattern `lodash` matches exactly the string
`lodash`; and compilation is a pure function of the pattern string, so
compiling twice gives identical match semantics. -/
theorem c7_pattern_compilation :
    externalMatch "@foo/*" "@foo/bar" = true ∧
    externalMatch "@foo/*" "@foo/" = true ∧
    externalMatch "@foo/*" "@foobar" = false ∧
    externalMatch "a.b" "a.b" = true ∧
    externalMatch "a.b" "axb" = false ∧
    (∀ s : String, externalMatch "lodash" s = true ↔ s = "lodash") ∧
    (∀ p : String, externalMatch p = externalMatch p) := by
  refine ⟨by decide, by decide, by decide, by decide, by decide, ?_, fun p => rfl⟩
  intro s
  have h := reMatchF_literal ("lodash".data.length + s.data.length + 1) "lodash".data s.data
    (by omega) (by decide)
  unfold externalMatch
  rw [h]
  constructor
  · intro h2
    exact String.ext h2.symm
  · intro h2
    rw [h2]

/-- A URL without the `file:` prefix never classifies into the file
namespace. -/
theorem classify_ne_file {res : String} (hf : strStarts res "file:" = false) :
    classify res ≠ some "file" := by
  unfold classify
  rw [hf]
  by_cases h2 : strStarts res "http:" = true <;> by_cases h3 : strStarts res "https:" = true <;>
    by_cases h4 : strStarts res "npm:" = true <;> by_cases h5 : strStarts res "jsr:" = true <;>
      simp [h2, h3, h4, h5]

/-- C8: on the success path of `onResolve`, a resolved URL classified into
the file namespace is returned with its path converted to a platform file
path, while a URL of any other (or of no) namespace is returned
character-for-character unchanged, together with its classification as the
namespace. -/
theorem c8_resolved_path
    (isB : String → Bool) (exts : List String)
    (r : String → String → ResolutionMode → Except String String)
    (f : String → String) (args : OnResolveArgsM) (res : String)
    (hb : isB args.path = false)
    (hx : exts.any (fun ext => externalMatch ext args.path) = false)
    (hr : r args.path args.importer
      (if args.kind = .requireCall ∨ args.kind = .requireResolve then
        ResolutionMode.Require else ResolutionMode.Import) = .ok res) :
    (classify res = some "file" →
      onResolve isB exts r f args = .ok (.resolved (f res) (some "file"))) ∧
    (classify res ≠ some "file" →
      onResolve isB exts r f args = .ok (.resolved res (classify res))) := by
  have hcond : (isB args.path || exts.any (fun ext => externalMatch ext args.path)) = false := by
    simp [hb, hx]
  by_cases hf : strStarts res "file:" = true
  · have hcf : classify res = some "file" := by simp [classify, hf]
    constructor
    · intro _
      simp [onResolve, hcond, hr, hf, hcf]
    · intro hne
      exact absurd hcf hne
  · have hf' : strStarts res "file:" = false := by simpa using hf
    constructor
    · intro hc
      exact absurd hc (classify_ne_file hf')
    · intro _
      simp [onResolve, hcond, hr, hf']

/-- C8 witness: an npm-scheme resolved URL is handed to esbuild unchanged,
with its classification as namespace. -/
theorem c8_witness :
    onResolve (fun _ => false) [] (fun _ _ _ => .ok "npm:preact") (fun s => s)
      ⟨"preact", "file:///m.ts", .importStatement⟩ =
      .ok (.resolved "npm:preact" (classify "npm:preact")) :=
  (c8_resolved_path (fun _ => false) [] (fun _ _ _ => .ok "npm:preact") (fun s => s)
    ⟨"preact", "file:///m.ts", .importStatement⟩ "npm:preact" rfl rfl rfl).2 (by decide)

/-- C9: the Media Type Mapper is total over the MediaType enumeration and
follows the mapping table: Jsx to the jsx loader, JavaScript, Mjs and Cjs to
the plain js loader, TypeScript, Mts, Dmts and Dcts to the type-stripping ts
loader, Tsx to the tsx loader, Css to the css loader, Json and SourceMap to
the json loader, Html, Sql, Unknown and the enumeration values the switch
does not recognize (Cts, Dts) to the default passthrough loader, and Wasm to
the binary loader; every enumeration value maps to one of the defined
loader names. -/
theorem c9_media_mapping :
    mediaToLoader .Jsx = "jsx" ∧
    mediaToLoader .JavaScript = "js" ∧ mediaToLoader .Mjs = "js" ∧ mediaToLoader .Cjs = "js" ∧
    mediaToLoader .TypeScript = "ts" ∧ mediaToLoader .Mts = "ts" ∧
    mediaToLoader .Dmts = "ts" ∧ mediaToLoader .Dcts = "ts" ∧
    mediaToLoader .Tsx = "tsx" ∧
    mediaToLoader .Css = "css" ∧
    mediaToLoader .Json = "json" ∧ mediaToLoader .SourceMap = "json" ∧
    mediaToLoader .Html = "default" ∧ mediaToLoader .Sql = "default" ∧
    mediaToLoader .Unknown = "default" ∧
    mediaToLoader .Cts = "default" ∧ mediaToLoader .Dts = "default" ∧
    mediaToLoader .Wasm = "binary" ∧
    (∀ t : MediaType,
      mediaToLoader t = "jsx" ∨ mediaToLoader t = "js" ∨ mediaToLoader t = "ts" ∨
      mediaToLoader t = "tsx" ∨ mediaToLoader t = "css" ∨ mediaToLoader t = "json" ∨
      mediaToLoader t = "default" ∨ mediaToLoader t = "binary") := by
  refine ⟨rfl, rfl, rfl, rfl, rfl, rfl, rfl, rfl, rfl, rfl, rfl, rfl, rfl, rfl, rfl, rfl, rfl,
    rfl, ?_⟩
  intro t
  cases t <;> simp [mediaToLoader]

/-- Bind on a successful `Except` computation reduces to the continuation. -/
theorem exceptBind_ok {ε α β : Type} (a : α) (f : α → Except ε β) :
    (Except.ok a >>= f) = f a := rfl

/-- Pure in the `Except` monad is a successful result. -/
theorem exceptPure_eq {ε α : Type} (a : α) : (pure a : Except ε α) = Except.ok a := rfl

/-- C10: when the public env-var prefix option is absent or is the empty
string, or the requested module type is not Default, `onLoad` returns the
engine's code bytes untouched, with only the loader field derived from the
media type. -/
theorem c10_env_disabled {β : Type} (decode : β → String) (env : String → Option String)
    (envPre : Option String) (conv : String → String)
    (loadE : String → RequestedModuleType → Except String (LoadResponse β))
    (args : OnLoadArgsM) (u : String) (mt : MediaType) (code : β)
    (hu : onLoadUrl conv args.path = .ok u)
    (hl : loadE u (getModuleType args.path args.withType) = .ok (.module mt code))
    (hd : envPre = none ∨ envPre = some "" ∨
      getModuleType args.path args.withType ≠ .Default) :
    onLoad decode env envPre conv loadE args =
      .ok (some ⟨.bytes code, mediaToLoader mt⟩) := by
  rcases hd with hd | hd | hd
  · subst hd
    simp [onLoad, hu, hl, exceptBind_ok, exceptPure_eq]
  · subst hd
    simp [onLoad, hu, hl, exceptBind_ok, exceptPure_eq]
  · cases envPre with
    | none => simp [onLoad, hu, hl, exceptBind_ok, exceptPure_eq]
    | some p => simp [onLoad, hu, hl, hd, exceptBind_ok, exceptPure_eq]

/-- C10 witness: with no prefix option configured, a JavaScript module's
bytes are returned unchanged with the js loader. -/
theorem c10_witness :
    onLoad (fun b : String => b) (fun _ => none) none (fun p => "file://" ++ p)
      (fun _ _ => .ok (.module .JavaScript "code")) ⟨"/a.js", none⟩ =
      .ok (some ⟨.bytes "code", mediaToLoader MediaType.JavaScript⟩) :=
  c10_env_disabled (fun b => b) (fun _ => none) none (fun p => "file://" ++ p)
    (fun _ _ => .ok (.module .JavaScript "code")) ⟨"/a.js", none⟩
    "file:///a.js" MediaType.JavaScript "code" rfl rfl (Or.inl rfl)

/-- C7 witness: the wildcard-free pattern `lodash` accepts its own text. -/
theorem c7_pattern_compilation_witness : externalMatch "lodash" "lodash" = true :=
  (c7_pattern_compilation.2.2.2.2.2.1 "lodash").mpr rfl

/-- C9 witness: the stylesheet case of the mapping table. -/
theorem c9_media_mapping_witness : mediaToLoader MediaType.Css = "css" :=
  c9_media_mapping.2.2.2.2.2.2.2.2.2.1
